import Mathlib

/-!
Verification of the entitlements policy helpers, the entitlement lifecycle
endpoint and the fake-request middleware utility.

Shallow embedding conventions:
* Timestamps are integers counting seconds (UTC).  The Python expression
  `(a - b).days` on `datetime` values is `timedelta.days`, which is the floor
  of the elapsed seconds divided by 86400; it is modelled by `daysBetween`
  below using `Int.fdiv`.
* The ambient clock `datetime.utcnow()` / `timezone.now()` is passed in as an
  explicit `now` argument.
* Python objects become structures; a nullable reference becomes `Option`.
* Attribute accesses that the receiving object cannot satisfy (there are two
  in the helpers module) are modelled as `Except.error` values carrying the
  AttributeError message; Python short-circuit evaluation of `and` / `or` is
  preserved, so an access that the control flow never reaches never fails.
* Persistence: a Django model instance mutated in memory reaches the database
  only when `instance.save()` runs; each endpoint operation therefore returns
  the persisted record together with flags recording whether `save` ran,
  whether the external unenroll call was made, and whether an exception
  propagated to the caller.
-/

namespace Entitlements

/-- Seconds-since-epoch timestamp, standing for a `datetime` value. -/
abbrev Timestamp := Int

/-- Seconds in one day; `timedelta(days = n)` is `n * secondsPerDay` seconds. -/
def secondsPerDay : Int := 86400

/-- Python `(a - b).days`: the floor of elapsed seconds over a day
(`timedelta.days` floors, it does not round toward zero). -/
def daysBetween (a b : Timestamp) : Int :=
  Int.fdiv (a - b) secondsPerDay

/-- A course-run enrollment record (`entitlement.enrollment_course_run`):
the course run identifier and the creation timestamp of the record. -/
structure EnrollmentCourseRun where
  course_id : String
  created : Timestamp
  deriving Repr, DecidableEq

/-- A course entitlement row: identifier, owning user, creation timestamp,
nullable expiration stamp, nullable enrollment reference. -/
structure Entitlement where
  uuid : String
  user : String
  created : Timestamp
  expired_at : Option Timestamp
  enrollment_course_run : Option EnrollmentCourseRun
  deriving Repr, DecidableEq

/-- The `ENTITLEMENT_POLICY` site-configuration dictionary: the three
day-count thresholds the helpers read. -/
structure Policy where
  expiration_period_days : Int
  refund_period_days : Int
  regain_period_days : Int
  deriving Repr, DecidableEq

/-- A `CourseOverview` row: course identifier and course start date. -/
structure CourseOverview where
  id : String
  start : Timestamp
  deriving Repr, DecidableEq

/-- `helpers.is_entitlement_expired`:
`(utcnow() - entitlement.created).days > policy[expiration_period_days]
 and not entitlement.enrollment_course_run`.
`None` is the only falsy value the enrollment field can take, so
`not entitlement.enrollment_course_run` is `enrollment_course_run.isNone`.
A pure function of its arguments. -/
def is_entitlement_expired (now : Timestamp) (e : Entitlement) (p : Policy) : Bool :=
  decide (daysBetween now e.created > p.expiration_period_days) &&
    e.enrollment_course_run.isNone

/-- `helpers.is_entitlement_refundable`:
`(utcnow() - entitlement.created).days > policy[refund_period_days]
 and not entitlement.entitlement.enrollment_course_run`.
The right operand reads `entitlement.entitlement`, an attribute the
entitlement row does not have, so whenever the left operand is true the
function raises AttributeError; when the left operand is false, `and`
short-circuits and the function returns `False`. -/
def is_entitlement_refundable (now : Timestamp) (e : Entitlement) (p : Policy) :
    Except String Bool :=
  if daysBetween now e.created > p.refund_period_days then
    Except.error "AttributeError: CourseEntitlement object has no attribute entitlement"
  else
    Except.ok false

/-- `CourseOverview.objects.filter(id=cid)`: the QuerySet of matching rows. -/
def courseOverviewFilter (db : List CourseOverview) (cid : String) :
    List CourseOverview :=
  db.filter (fun c => c.id == cid)

/-- The attribute access `course_overview.start` in
`is_entitlement_regainable`, where `course_overview` is the QuerySet returned
by `filter` (not a row): a QuerySet has no `start` attribute, so the access
raises AttributeError whatever the rows are. -/
def querySetStart (_qs : List CourseOverview) : Except String Timestamp :=
  Except.error "AttributeError: QuerySet object has no attribute start"

/-- `helpers.is_entitlement_regainable`: returns `False` when
`enrollment_course_run` is null; otherwise filters `CourseOverview` by the
enrolled course id and compares `(now - course_overview.start).days` and
`(now - enrollment_course_run.created).days` against
`policy[regain_period_days]`.  The `.start` access is on the QuerySet, so the
enrolled branch raises AttributeError before any comparison. -/
def is_entitlement_regainable (db : List CourseOverview) (now : Timestamp)
    (e : Entitlement) (p : Policy) : Except String Bool :=
  match e.enrollment_course_run with
  | some run =>
    let course_overview := courseOverviewFilter db run.course_id
    match querySetStart course_overview with
    | Except.error msg => Except.error msg
    | Except.ok start =>
        Except.ok (decide (daysBetween now start > p.regain_period_days) ||
          decide (daysBetween now run.created > p.regain_period_days))
  | none => Except.ok false

/-- `helpers.get_days_until_expiration`:
`entitlement.created + timedelta(days=policy[expiration_period_days])`,
a timestamp, not a day count. -/
def get_days_until_expiration (e : Entitlement) (p : Policy) : Timestamp :=
  e.created + p.expiration_period_days * secondsPerDay

/-- `EntitlementViewSet.retrieve` applied to the loaded instance: when
`expired_at` is null and the expiration predicate holds, stamp `expired_at`
with `now` and save; otherwise leave the record untouched.  Returns the
record the response serializes together with whether `save` ran. -/
def retrieveOp (now : Timestamp) (p : Policy) (inst : Entitlement) :
    Entitlement × Bool :=
  if inst.expired_at.isNone then
    if is_entitlement_expired now inst p then
      ({ inst with expired_at := some now }, true)
    else (inst, false)
  else (inst, false)

/-- The per-entitlement body of the loop in `EntitlementViewSet.list`:
`if not entitlement.expired_at and is_entitlement_expired(...)` stamp and
save, else leave untouched. -/
def listStep (now : Timestamp) (p : Policy) (e : Entitlement) :
    Entitlement × Bool :=
  if e.expired_at.isNone && is_entitlement_expired now e p then
    ({ e with expired_at := some now }, true)
  else (e, false)

/-- `EntitlementViewSet.list`: runs `listStep` on every entitlement of the
filtered queryset before serializing them. -/
def listOp (now : Timestamp) (p : Policy) (es : List Entitlement) :
    List (Entitlement × Bool) :=
  es.map (listStep now p)

/-- Outcome of one `perform_destroy` call: the database row after the call
(`save` is the only write), whether `CourseEnrollment.unenroll` was invoked,
whether `save` ran, and whether an exception propagated to the caller. -/
structure DestroyOutcome where
  persisted : Entitlement
  unenrollCalled : Bool
  saved : Bool
  raised : Bool
  deriving Repr, DecidableEq

/-- `EntitlementViewSet.perform_destroy`:
stamp `expired_at` in memory when null; when an enrollment reference exists,
call `CourseEnrollment.unenroll(..., skip_refund=True)` and clear the
reference; finally `instance.save()` when anything changed.  The parameter
`unenrollSucceeds` says whether the external unenroll call returns normally;
when it raises, the exception propagates before `save`, so the database row
is unchanged. -/
def perform_destroy (now : Timestamp) (unenrollSucceeds : Bool)
    (e : Entitlement) : DestroyOutcome :=
  let stamped := e.expired_at.isNone
  let inst1 := if stamped then { e with expired_at := some now } else e
  match inst1.enrollment_course_run with
  | some _ =>
    if unenrollSucceeds then
      { persisted := { inst1 with enrollment_course_run := none },
        unenrollCalled := true, saved := true, raised := false }
    else
      { persisted := e, unenrollCalled := true, saved := false, raised := true }
  | none =>
    if stamped then
      { persisted := inst1, unenrollCalled := false, saved := true, raised := false }
    else
      { persisted := e, unenrollCalled := false, saved := false, raised := false }

end Entitlements

namespace TaskUtils

/-- A middleware class as `emulate_http_request` sees it: which of the three
optional hooks the instance implements (`hasattr` checks performed by
`_run_method_if_implemented`). -/
structure Middleware where
  has_process_request : Bool
  has_process_exception : Bool
  has_process_response : Bool
  deriving Repr, DecidableEq

/-- One observable step of `emulate_http_request`: a hook call on the
middleware at a given position of the list, or the body running at the
`yield`. -/
inductive MwEvent where
  | processRequest (i : Nat)
  | bodyRun
  | processException (i : Nat)
  | processResponse (i : Nat)
  deriving Repr, DecidableEq

/-- Pair every middleware with its position in the instantiation order. -/
def enumFrom : Nat → List Middleware → List (Nat × Middleware)
  | _, [] => []
  | k, m :: rest => (k, m) :: enumFrom (k + 1) rest

/-- The first loop: `process_request` on each middleware, in list order,
skipping instances that do not implement the hook. -/
def runRequestHooks : List (Nat × Middleware) → List MwEvent
  | [] => []
  | (i, m) :: rest =>
    (if m.has_process_request then [MwEvent.processRequest i] else []) ++
      runRequestHooks rest

/-- The `except` loop: `process_exception` on each middleware of the already
reversed list, skipping instances that do not implement the hook. -/
def runExceptionHooks : List (Nat × Middleware) → List MwEvent
  | [] => []
  | (i, m) :: rest =>
    (if m.has_process_exception then [MwEvent.processException i] else []) ++
      runExceptionHooks rest

/-- The `else` loop: `process_response` on each middleware of the already
reversed list, skipping instances that do not implement the hook. -/
def runResponseHooks : List (Nat × Middleware) → List MwEvent
  | [] => []
  | (i, m) :: rest =>
    (if m.has_process_response then [MwEvent.processResponse i] else []) ++
      runResponseHooks rest

/-- `emulate_http_request`: run `process_request` on every middleware, run
the body at the `yield`, then over `reversed(middleware_instances)` run
`process_exception` when the body raised an `Exception`, or
`process_response` when it returned.  The first component is the event
trace; the second says whether an exception escapes to the caller of the
`with` block.  The `except` clause does not re-raise, and under
`contextlib.contextmanager` a generator that handles the thrown-in exception
makes `__exit__` return true, so the exception is suppressed and the flag is
false on both paths. -/
def emulate_http_request (mws : List Middleware) (bodyRaises : Bool) :
    List MwEvent × Bool :=
  let middleware_instances := enumFrom 0 mws
  let before := runRequestHooks middleware_instances
  if bodyRaises then
    (before ++ MwEvent.bodyRun :: runExceptionHooks middleware_instances.reverse,
      false)
  else
    (before ++ MwEvent.bodyRun :: runResponseHooks middleware_instances.reverse,
      false)

end TaskUtils

namespace Entitlements

/-- An entitlement created at time 0, never expired, never redeemed. -/
def entA : Entitlement :=
  { uuid := "ent-a", user := "jane", created := 0,
    expired_at := none, enrollment_course_run := none }

/-- An enrollment record into a course run, created at time 0. -/
def runX : EnrollmentCourseRun :=
  { course_id := "course-v1:edX+DemoX+T1", created := 0 }

/-- An entitlement created at time 0, never expired, redeemed into `runX`. -/
def entC : Entitlement :=
  { uuid := "ent-c", user := "jane", created := 0,
    expired_at := none, enrollment_course_run := some runX }

/-- An entitlement already expired at time 5 and still holding an
enrollment reference. -/
def entD : Entitlement :=
  { uuid := "ent-d", user := "jane", created := 0,
    expired_at := some 5, enrollment_course_run := some runX }

/-- A policy with every threshold at 30 days. -/
def polA : Policy :=
  { expiration_period_days := 30, refund_period_days := 30,
    regain_period_days := 30 }

/-- A course-overview table holding the run `entC` is enrolled in. -/
def dbC : List CourseOverview :=
  [{ id := "course-v1:edX+DemoX+T1", start := 0 }]

/-- A clock reading 40 days after time 0. -/
def t40 : Timestamp := 40 * secondsPerDay

/-- C1: `is_entitlement_expired` returns true iff the truncated day
difference between now and the creation timestamp strictly exceeds
`expiration_period_days` and no enrollment reference is set (so with an
enrollment reference it is false regardless of age); it is a pure Lean
function of `(now, e, p)`, so it has no side effects on the entitlement or
the policy. -/
theorem C1_expired_iff (now : Timestamp) (e : Entitlement) (p : Policy)
    (_h : e.created ≤ now) :
    is_entitlement_expired now e p = true ↔
      ((now - e.created) / secondsPerDay > p.expiration_period_days ∧
        e.enrollment_course_run = none) := by
  unfold is_entitlement_expired daysBetween
  rw [Int.fdiv_eq_ediv _ (by norm_num [secondsPerDay] : (0 : Int) ≤ secondsPerDay)]
  simp [Option.isNone_iff_eq_none]

/-- C1 witness: the 30-day policy applied 40 days after creation of an
unredeemed entitlement. -/
theorem C1_expired_iff_witness :
    is_entitlement_expired t40 entA polA = true ↔
      ((t40 - entA.created) / secondsPerDay > polA.expiration_period_days ∧
        entA.enrollment_course_run = none) :=
  C1_expired_iff t40 entA polA (by decide)

/-- C8: `get_days_until_expiration` returns the creation timestamp plus
`expiration_period_days` days — a deadline timestamp; indeed the elapsed-day
count from creation to the returned value is exactly
`expiration_period_days`, not zero-dimensional day arithmetic on a count. -/
theorem C8_days_until_expiration (e : Entitlement) (p : Policy) :
    get_days_until_expiration e p =
        e.created + p.expiration_period_days * secondsPerDay ∧
      daysBetween (get_days_until_expiration e p) e.created =
        p.expiration_period_days := by
  constructor
  · rfl
  · unfold get_days_until_expiration daysBetween
    rw [Int.fdiv_eq_ediv _ (by norm_num [secondsPerDay] : (0 : Int) ≤ secondsPerDay)]
    rw [add_sub_cancel_left]
    exact Int.mul_ediv_cancel _ (by norm_num [secondsPerDay])

/-- C3 (code bug): on an entitlement whose age exceeds `refund_period_days`,
`is_entitlement_refundable` evaluates `entitlement.entitlement`, an
attribute the entitlement does not have, and raises AttributeError instead
of returning a boolean; below the threshold the `and` short-circuits and it
returns `False` without reaching the broken access. -/
theorem C3_refundable_raises :
    is_entitlement_refundable t40 entA polA =
        Except.error
          "AttributeError: CourseEntitlement object has no attribute entitlement" ∧
      is_entitlement_refundable (10 * secondsPerDay) entA polA =
        Except.ok false := by
  constructor <;> rfl

/-- C4 (code bug): on an entitlement with an enrollment reference,
`is_entitlement_regainable` reads `.start` on the QuerySet returned by
`CourseOverview.objects.filter`, which has no such attribute, and raises
AttributeError even though the table holds the enrolled run; without an
enrollment reference it returns `False` as the claim says. -/
theorem C4_regainable_raises :
    is_entitlement_regainable dbC t40 entC polA =
        Except.error "AttributeError: QuerySet object has no attribute start" ∧
      is_entitlement_regainable dbC t40 entA polA = Except.ok false := by
  constructor <;> rfl

/-- C2: a non-null `expired_at` is preserved by every operation of the
fragment — retrieve, the per-record step of list, and revoke (whether or not
the external unenroll call succeeds): the Active-to-Expired transition is
monotonic and terminal. -/
theorem C2_expired_at_monotonic (now : Timestamp) (p : Policy)
    (e : Entitlement) (t : Timestamp) (ok : Bool)
    (h : e.expired_at = some t) :
    (retrieveOp now p e).1.expired_at = some t ∧
      (listStep now p e).1.expired_at = some t ∧
      (perform_destroy now ok e).persisted.expired_at = some t := by
  refine ⟨?_, ?_, ?_⟩
  · simp [retrieveOp, h]
  · simp [listStep, h]
  · cases henr : e.enrollment_course_run with
    | some run => cases ok <;> simp [perform_destroy, h, henr]
    | none => simp [perform_destroy, h, henr]

/-- C2 witness: an entitlement expired at time 5, through all three
operations at time 100 under the 30-day policy. -/
theorem C2_expired_at_monotonic_witness :
    (retrieveOp 100 polA entD).1.expired_at = some 5 ∧
      (listStep 100 polA entD).1.expired_at = some 5 ∧
      (perform_destroy 100 false entD).persisted.expired_at = some 5 :=
  C2_expired_at_monotonic 100 polA entD 5 false rfl

/-- C5: when `expired_at` is null and the expiration predicate holds,
retrieve (and the per-record step of list) returns the record with
`expired_at` stamped to now and saves it; when `expired_at` is already
non-null or the predicate is false, the stored record is returned unchanged
and nothing is saved. -/
theorem C5_retrieve_expires (now : Timestamp) (p : Policy) (e : Entitlement) :
    (e.expired_at = none → is_entitlement_expired now e p = true →
        retrieveOp now p e = ({ e with expired_at := some now }, true) ∧
          listStep now p e = ({ e with expired_at := some now }, true)) ∧
      (e.expired_at ≠ none ∨ is_entitlement_expired now e p = false →
        retrieveOp now p e = (e, false) ∧ listStep now p e = (e, false)) := by
  constructor
  · intro h1 h2
    constructor <;> simp [retrieveOp, listStep, h1, h2]
  · intro h
    cases h with
    | inl h1 =>
      rw [Option.ne_none_iff_exists] at h1
      obtain ⟨t, h1⟩ := h1
      constructor <;> simp [retrieveOp, listStep, ← h1]
    | inr h2 =>
      constructor <;> simp [retrieveOp, listStep, h2]

/-- C5 witness: the spec scenario — created 40 days ago, no enrollment,
`expiration_period_days = 30` — comes back with `expired_at` stamped to now,
saved. -/
theorem C5_retrieve_expires_witness :
    retrieveOp t40 polA entA = ({ entA with expired_at := some t40 }, true) ∧
      (retrieveOp t40 polA entA).1.expired_at ≠ none := by
  have h := (C5_retrieve_expires t40 polA entA).1 rfl (by decide)
  refine ⟨h.1, ?_⟩
  rw [h.1]
  simp

/-- C6: revoke is idempotent — running `perform_destroy` a second time (at
any later clock value) on the record persisted by a first successful run
leaves the persisted record unchanged, makes no unenroll call and does not
save. -/
theorem C6_destroy_idempotent (now1 now2 : Timestamp) (e : Entitlement) :
    (perform_destroy now2 true
        (perform_destroy now1 true e).persisted).persisted =
        (perform_destroy now1 true e).persisted ∧
      (perform_destroy now2 true
        (perform_destroy now1 true e).persisted).unenrollCalled = false ∧
      (perform_destroy now2 true
        (perform_destroy now1 true e).persisted).saved = false := by
  cases hexp : e.expired_at <;> cases henr : e.enrollment_course_run <;>
    simp [perform_destroy, hexp, henr]

/-- C7 counterexample: no entitlement with a null `expired_at` and an
enrollment reference is ever persisted with `expired_at` set when the
external unenroll call fails — the exception propagates before
`instance.save()`, so the in-memory stamp never reaches the database. -/
theorem C7_counterexample :
    ¬ ∃ (now : Timestamp) (e : Entitlement),
        e.expired_at = none ∧ e.enrollment_course_run ≠ none ∧
          (perform_destroy now false e).persisted.expired_at ≠ none := by
  rintro ⟨now, e, hexp, henr, habs⟩
  rw [Option.ne_none_iff_exists] at henr
  obtain ⟨run, hrun⟩ := henr
  apply habs
  simp [perform_destroy, hexp, ← hrun]

/-- C7 amended: the two mutations are indeed not wrapped in a transaction,
but when the external unenroll call fails after the in-memory `expired_at`
stamp, the save never runs and the persisted entitlement is unchanged —
`expired_at` still null and the enrollment reference still present; the
stamp is lost and the exception propagates to the caller. -/
theorem C7_destroy_unenroll_failure (now : Timestamp) (e : Entitlement)
    (h1 : e.expired_at = none) (h2 : e.enrollment_course_run ≠ none) :
    (perform_destroy now false e).persisted = e ∧
      (perform_destroy now false e).unenrollCalled = true ∧
      (perform_destroy now false e).saved = false ∧
      (perform_destroy now false e).raised = true := by
  rw [Option.ne_none_iff_exists] at h2
  obtain ⟨run, hrun⟩ := h2
  refine ⟨?_, ?_, ?_, ?_⟩ <;> simp [perform_destroy, h1, ← hrun]

/-- C7 amended witness: the never-expired, enrolled entitlement `entC` under
a failing unenroll call at time 100. -/
theorem C7_destroy_unenroll_failure_witness :
    (perform_destroy 100 false entC).persisted = entC ∧
      (perform_destroy 100 false entC).unenrollCalled = true ∧
      (perform_destroy 100 false entC).saved = false ∧
      (perform_destroy 100 false entC).raised = true :=
  C7_destroy_unenroll_failure 100 entC rfl (by decide)

end Entitlements

namespace TaskUtils

/-- Every middleware that implements `process_request` gets its event in the
first loop. -/
lemma mem_runRequestHooks {l : List (Nat × Middleware)} {i : Nat}
    {m : Middleware} (hm : (i, m) ∈ l) (h : m.has_process_request = true) :
    MwEvent.processRequest i ∈ runRequestHooks l := by
  induction l with
  | nil => cases hm
  | cons a rest ih =>
    cases hm with
    | head => simp [runRequestHooks, h]
    | tail _ hmem =>
      obtain ⟨k, m'⟩ := a
      simp only [runRequestHooks, List.mem_append]
      exact Or.inr (ih hmem)

/-- Every middleware that implements `process_exception` gets its event in
the `except` loop. -/
lemma mem_runExceptionHooks {l : List (Nat × Middleware)} {i : Nat}
    {m : Middleware} (hm : (i, m) ∈ l) (h : m.has_process_exception = true) :
    MwEvent.processException i ∈ runExceptionHooks l := by
  induction l with
  | nil => cases hm
  | cons a rest ih =>
    cases hm with
    | head => simp [runExceptionHooks, h]
    | tail _ hmem =>
      obtain ⟨k, m'⟩ := a
      simp only [runExceptionHooks, List.mem_append]
      exact Or.inr (ih hmem)

/-- Every middleware that implements `process_response` gets its event in
the `else` loop. -/
lemma mem_runResponseHooks {l : List (Nat × Middleware)} {i : Nat}
    {m : Middleware} (hm : (i, m) ∈ l) (h : m.has_process_response = true) :
    MwEvent.processResponse i ∈ runResponseHooks l := by
  induction l with
  | nil => cases hm
  | cons a rest ih =>
    cases hm with
    | head => simp [runResponseHooks, h]
    | tail _ hmem =>
      obtain ⟨k, m'⟩ := a
      simp only [runResponseHooks, List.mem_append]
      exact Or.inr (ih hmem)

/-- C9: the trace of `emulate_http_request` is the `process_request` hooks,
then the body, then a tail that runs, on the exceptional path, the
`process_exception` hook of every middleware that implements it and, on the
normal path, the `process_response` hook of every middleware that implements
it — every before hook precedes the body and the matching after hooks run on
both exit paths. -/
theorem C9_emulate_hook_phases (mws : List Middleware) (bodyRaises : Bool) :
    ∃ after : List MwEvent,
      (emulate_http_request mws bodyRaises).1 =
          runRequestHooks (enumFrom 0 mws) ++ MwEvent.bodyRun :: after ∧
        (∀ i m, (i, m) ∈ enumFrom 0 mws → m.has_process_request = true →
          MwEvent.processRequest i ∈ runRequestHooks (enumFrom 0 mws)) ∧
        (bodyRaises = true → ∀ i m, (i, m) ∈ enumFrom 0 mws →
          m.has_process_exception = true → MwEvent.processException i ∈ after) ∧
        (bodyRaises = false → ∀ i m, (i, m) ∈ enumFrom 0 mws →
          m.has_process_response = true → MwEvent.processResponse i ∈ after) := by
  cases bodyRaises with
  | true =>
    refine ⟨runExceptionHooks (enumFrom 0 mws).reverse, rfl, ?_, ?_, ?_⟩
    · intro i m hm h
      exact mem_runRequestHooks hm h
    · intro _ i m hm h
      exact mem_runExceptionHooks (List.mem_reverse.mpr hm) h
    · intro hcontra
      exact absurd hcontra (by decide)
  | false =>
    refine ⟨runResponseHooks (enumFrom 0 mws).reverse, rfl, ?_, ?_, ?_⟩
    · intro i m hm h
      exact mem_runRequestHooks hm h
    · intro hcontra
      exact absurd hcontra (by decide)
    · intro _ i m hm h
      exact mem_runResponseHooks (List.mem_reverse.mpr hm) h

/-- A middleware that implements all three hooks. -/
def mw0 : Middleware :=
  { has_process_request := true, has_process_exception := true,
    has_process_response := true }

/-- A middleware that implements only `process_exception`. -/
def mw1 : Middleware :=
  { has_process_request := false, has_process_exception := true,
    has_process_response := false }

/-- A middleware that implements the request and exception hooks. -/
def mw2 : Middleware :=
  { has_process_request := true, has_process_exception := true,
    has_process_response := false }

/-- C9 witness: two concrete middlewares around a raising body — the trace
splits at the body and the second middleware runs its exception hook in the
tail. -/
theorem C9_emulate_hook_phases_witness :
    ∃ after : List MwEvent,
      (emulate_http_request [mw0, mw1] true).1 =
          runRequestHooks (enumFrom 0 [mw0, mw1]) ++ MwEvent.bodyRun :: after ∧
        MwEvent.processException 1 ∈ after := by
  obtain ⟨after, h1, _, h3, _⟩ := C9_emulate_hook_phases [mw0, mw1] true
  exact ⟨after, h1, h3 rfl 1 mw1 (by decide) rfl⟩

/-- Positions recorded by `enumFrom k` are at least `k`. -/
lemma mem_enumFrom_fst_ge {l : List Middleware} {k i : Nat} {m : Middleware}
    (hm : (i, m) ∈ enumFrom k l) : k ≤ i := by
  induction l generalizing k with
  | nil => cases hm
  | cons a rest ih =>
    cases hm with
    | head => exact Nat.le_refl _
    | tail _ hmem => exact Nat.le_of_succ_le (ih hmem)

/-- Two members of `enumFrom k l` with increasing positions occur in that
order: the pair list is a sublist of the enumeration. -/
lemma sublist_enumFrom :
    ∀ (l : List Middleware) (k i j : Nat) (mi mj : Middleware),
      (i, mi) ∈ enumFrom k l → (j, mj) ∈ enumFrom k l → i < j →
      List.Sublist [(i, mi), (j, mj)] (enumFrom k l) := by
  intro l
  induction l with
  | nil =>
    intro k i j mi mj hi _ _
    cases hi
  | cons a rest ih =>
    intro k i j mi mj hi hj hij
    cases hi with
    | head =>
      cases hj with
      | head => exact absurd hij (Nat.lt_irrefl _)
      | tail _ hjmem =>
        exact List.Sublist.cons₂ _ (List.singleton_sublist.mpr hjmem)
    | tail _ himem =>
      cases hj with
      | head =>
        have hk1 : k + 1 ≤ i := mem_enumFrom_fst_ge himem
        exact absurd (Nat.lt_of_succ_le hk1) (Nat.lt_asymm hij)
      | tail _ hjmem =>
        exact List.Sublist.cons _ (ih (k + 1) i j mi mj himem hjmem hij)

/-- Exception hooks of two listed middlewares run in list order: a pair of
positioned middlewares that both implement `process_exception` yields the
corresponding pair of events, in order, inside the `except` loop trace. -/
lemma sublist_runExceptionHooks :
    ∀ {l : List (Nat × Middleware)} {i j : Nat} {mi mj : Middleware},
      List.Sublist [(j, mj), (i, mi)] l →
      mi.has_process_exception = true → mj.has_process_exception = true →
      List.Sublist [MwEvent.processException j, MwEvent.processException i]
        (runExceptionHooks l) := by
  intro l
  induction l with
  | nil =>
    intro i j mi mj h _ _
    exact absurd h (by simp)
  | cons a rest ih =>
    intro i j mi mj h hmi hmj
    cases h with
    | cons _ htail =>
      obtain ⟨k, m⟩ := a
      have hrest := ih htail hmi hmj
      simp only [runExceptionHooks]
      exact hrest.trans (List.sublist_append_right _ _)
    | cons₂ _ htail =>
      have hmem : (i, mi) ∈ rest := List.singleton_sublist.mp htail
      simp only [runExceptionHooks, hmj, if_pos]
      exact List.Sublist.cons₂ _
        (List.singleton_sublist.mpr (mem_runExceptionHooks hmem hmi))

/-- C10: when the body raises, the exception is suppressed — the second
component of the outcome says nothing escapes to the caller — and the
`process_exception` hooks run in reverse middleware order: whenever position
`i` precedes position `j` and both middlewares implement the hook, the event
for `j` precedes the event for `i` in the trace. -/
theorem C10_exception_reverse_suppressed (mws : List Middleware)
    (i j : Nat) (mi mj : Middleware) (hij : i < j)
    (hi : (i, mi) ∈ enumFrom 0 mws) (hj : (j, mj) ∈ enumFrom 0 mws)
    (hmi : mi.has_process_exception = true)
    (hmj : mj.has_process_exception = true) :
    (emulate_http_request mws true).2 = false ∧
      List.Sublist [MwEvent.processException j, MwEvent.processException i]
        (emulate_http_request mws true).1 := by
  refine ⟨rfl, ?_⟩
  have hsub : List.Sublist [(i, mi), (j, mj)] (enumFrom 0 mws) :=
    sublist_enumFrom mws 0 i j mi mj hi hj hij
  have hrev : List.Sublist [(j, mj), (i, mi)] (enumFrom 0 mws).reverse := by
    have h := hsub.reverse
    simpa using h
  have hexc := sublist_runExceptionHooks hrev hmi hmj
  show List.Sublist _
    (runRequestHooks (enumFrom 0 mws) ++
      MwEvent.bodyRun :: runExceptionHooks (enumFrom 0 mws).reverse)
  exact hexc.trans
    ((List.sublist_cons_self _ _).trans (List.sublist_append_right _ _))

/-- C10 witness: three concrete middlewares, positions 0 and 2 — the
exception hook of the later middleware appears first and nothing escapes. -/
theorem C10_exception_reverse_suppressed_witness :
    (emulate_http_request [mw0, mw1, mw2] true).2 = false ∧
      List.Sublist [MwEvent.processException 2, MwEvent.processException 0]
        (emulate_http_request [mw0, mw1, mw2] true).1 :=
  C10_exception_reverse_suppressed [mw0, mw1, mw2] 0 2 mw0 mw2
    (by decide) (by decide) (by decide) rfl rfl

end TaskUtils
